import Mathlib

/-!
Verification of the `gtf-reflected-router` decorator library.

The development shallowly embeds the two source modules the claims are
about:

* the HTTP route decorator and its metadata store
  (`Route`, `getRoutes`);
* the cron-job decorator, its expression/option validators, its metadata
  store and the retry/timeout executor
  (`CronJob`, `validateCronExpression`, `isValidCronPart`,
  `validateCronJobOptions`, `getCronJobs`, `getCronJob`,
  `getActiveCronJobs`, `executeCronJobSafely`).

JavaScript-specific behaviour (string `split`, `Number` coercion,
truthiness, optional chaining, nullish coalescing, object spread) is
modelled by small helper functions named `js...`; each carries a comment
stating which JavaScript primitive it renders.  `Reflect` metadata keyed
by a class is modelled as an explicit store value of type
`Option (List _)` (`none` = no metadata ever defined on the class), and
each decorator is a function from the current store to the pair of the
resulting store and an optional raised error, so that a raised error
leaving the store untouched is directly visible in the type.
-/

namespace GtfReflectedRouter

/-! ## JavaScript string and number primitives, over `List Char` -/

/-- Split a character list at every character satisfying `p`, keeping
empty pieces, as JS `String.prototype.split` does
(so `",".split(",")` is `["", ""]`).  `acc` holds the current piece
reversed. -/
def jsSplitPAux (p : Char → Bool) : List Char → List Char → List (List Char)
  | acc, [] => [acc.reverse]
  | acc, c :: cs =>
    if p c then acc.reverse :: jsSplitPAux p [] cs
    else jsSplitPAux p (c :: acc) cs

/-- JS `s.split(sep)` for a one-character separator `sep`. -/
def jsSplitChar (sep : Char) (s : String) : List String :=
  (jsSplitPAux (· == sep) [] s.data).map String.mk

/-- JS `String.prototype.trim`: strip leading and trailing whitespace. -/
def jsTrim (s : String) : String :=
  String.mk ((s.data.dropWhile Char.isWhitespace).reverse.dropWhile
    Char.isWhitespace).reverse

/-- JS `s.split(/\s+/)` applied to an already trimmed, non-empty string:
splitting at whitespace runs yields the whitespace-free fields with no
empty pieces.  (Rendered as a character split followed by dropping the
empty pieces, which agrees with the regex split on trimmed input.) -/
def jsSplitWhitespace (s : String) : List String :=
  ((jsSplitPAux Char.isWhitespace [] s.data).filter
    (fun piece => !piece.isEmpty)).map String.mk

/-- JS `String.prototype.includes` for a one-character needle. -/
def jsIncludesChar (c : Char) (s : String) : Bool :=
  s.data.any (· == c)

/-- JS `String.prototype.startsWith` for a one-character prefix. -/
def jsStartsWithChar (c : Char) (s : String) : Bool :=
  match s.data with
  | [] => false
  | c2 :: _ => c2 == c

/-- JS `String.prototype.toUpperCase`, restricted to ASCII letters (the
only characters appearing in HTTP method names).  `Char.toUpper`
uppercases exactly the ASCII range, as JS does there. -/
def jsToUpperCase (s : String) : String :=
  String.mk (s.data.map Char.toUpper)

/-- The value of a non-empty all-digit character list, `none` otherwise. -/
def digitsVal : List Char → Option Nat
  | [] => none
  | cs =>
    if cs.all Char.isDigit then
      some (cs.foldl (fun a c => a * 10 + (c.toNat - 48)) 0)
    else none

/-- JS `Number(s)` on the strings this code feeds it — whitespace-free
cron fields and pieces thereof.  `none` stands for `NaN`.  Modelled is
the integer fragment of the coercion: surrounding whitespace is trimmed,
the empty string converts to `0`, an optional sign followed by decimal
digits converts to the signed integer, and every other string (the
fields are integer tokens; fractional, hexadecimal, exponent and
`Infinity` forms do not occur) is `NaN`. -/
def jsNumber (s : String) : Option Int :=
  match (jsTrim s).data with
  | [] => some 0
  | '-' :: rest => (digitsVal rest).map (fun n => -(n : Int))
  | '+' :: rest => (digitsVal rest).map (fun n => (n : Int))
  | cs => (digitsVal cs).map (fun n => (n : Int))

/-- JS number truthiness: a number is falsy exactly when it is `0` or
`NaN` (the source never produces `-0` here). -/
def jsFalsyNum : Option Int → Bool
  | none => true
  | some v => v == 0

/-- JS `isNaN` on a value already coerced by `Number`. -/
def jsIsNaN (x : Option Int) : Bool :=
  x.isNone

/-- JS `x >= m` where `x` may be `NaN` (any comparison with `NaN` is
false). -/
def jsGe (x : Option Int) (m : Int) : Bool :=
  match x with
  | some v => decide (m ≤ v)
  | none => false

/-- JS `x <= m` where `x` may be `NaN`. -/
def jsLe (x : Option Int) (m : Int) : Bool :=
  match x with
  | some v => decide (v ≤ m)
  | none => false

/-- JS `x <= y` where either side may be `NaN`. -/
def jsLePair (x y : Option Int) : Bool :=
  match x, y with
  | some a, some b => decide (a ≤ b)
  | _, _ => false

/-- JS `Number(Number)`: coercing the `Number` function object itself
yields `NaN`.  The source contains the literal expression
`Number(Number)` (where `Number(start)` was evidently meant), so its
value is needed to render the code as written. -/
def numberOfNumberFn : Option Int := none

/-! ## Cron expression validation (`part_003`, lines 116-202) -/

/-- The sentinel message the timeout race rejects with. -/
def timeoutMessage : String := "Timeout"

/-- The distinct errors `@CronJob` and its validators can raise.  The
source raises `Error` values with Portuguese messages built by string
interpolation; only which check fired is observable to the claims, so
each throw site becomes one constructor. -/
inductive CronError where
  /-- line 118: the expression is missing (falsy) or not a string -/
  | exprRequired
  /-- line 123: the trimmed expression is empty -/
  | exprEmpty
  /-- line 128: fewer than 5 or more than 6 fields -/
  | wrongPartCount
  /-- line 153: field `index` failed `isValidCronPart` -/
  | invalidPart (index : Nat)
  /-- line 212: `maxConcurrency` present and below 1 -/
  | badMaxConcurrency
  /-- line 218: `timeout` present and below 1 -/
  | badTimeout
  /-- line 224: `priority` present and outside 1..10 -/
  | badPriority
  /-- line 230: `retryAttempts` present and negative -/
  | badRetryAttempts
  /-- line 236: `retryDelay` present and negative -/
  | badRetryDelay
  /-- line 275: the decorated member is not a function -/
  | notAMethod
  /-- line 295: a job with the same name is already registered -/
  | duplicateJob
deriving Repr, DecidableEq

/-- `isValidCronPart(part, min, max)` (lines 163-202), rendered branch
by branch.  `stop` stands for the source variable `end`, a Lean
keyword. -/
def isValidCronPart (part : String) (min max : Int) : Bool :=
  if part == "*" then true
  else if part == "?" then true
  else if jsIncludesChar '-' part then
    -- const [start, end] = part.split("-").map(Number)
    let nums := (jsSplitChar '-' part).map jsNumber
    let start := nums.getD 0 none
    let stop := nums.getD 1 none
    -- if (!start || !end) return false  — NB: also rejects the value 0
    if jsFalsyNum start || jsFalsyNum stop then false
    else
      !(jsIsNaN start) && !(jsIsNaN stop) &&
        jsGe start min && jsLe stop max && jsLePair start stop
  else if jsIncludesChar '/' part then
    let pieces := jsSplitChar '/' part
    let range := pieces.getD 0 ""
    -- Number(step): `step` is undefined when there is no second piece,
    -- and Number(undefined) is NaN
    let stepNum := match pieces.get? 1 with
      | some s => jsNumber s
      | none => none
    if jsIsNaN stepNum || jsLe stepNum 0 then false
    else if range == "" then false
    else if range == "*" then true
    else if jsIncludesChar '-' range then
      let nums := (jsSplitChar '-' range).map jsNumber
      let start := nums.getD 0 none
      let stop := nums.getD 1 none
      if jsFalsyNum start || jsFalsyNum stop then false
      else
        -- return !isNaN(Number(Number)) && !isNaN(Number(end)) && ...
        !(jsIsNaN numberOfNumberFn) && !(jsIsNaN stop) &&
          jsGe start min && jsLe stop max
    else
      let rangeNum := jsNumber range
      !(jsIsNaN rangeNum) && jsGe rangeNum min && jsLe rangeNum max
  else if jsIncludesChar ',' part then
    ((jsSplitChar ',' part).map jsNumber).all
      (fun v => !(jsIsNaN v) && jsGe v min && jsLe v max)
  else
    let value := jsNumber part
    !(jsIsNaN value) && jsGe value min && jsLe value max

/-- The per-position `(min, max)` table of `validateCronExpression`
(lines 133-143): minute, hour, day, month, day-of-week, with a second
field unshifted in front when there are 6 parts. -/
def cronValidators (numParts : Nat) : List (Int × Int) :=
  (if numParts = 6 then [((0 : Int), (59 : Int))] else []) ++
    [(0, 59), (0, 23), (1, 31), (1, 12), (0, 7)]

/-- `validateCronExpression` (lines 116-158).  `none` means the
expression is accepted; `some e` means the error `e` is raised.  (The
`typeof expression !== "string"` disjunct of line 117 and the
unreachable `!validator` guard of line 148 cannot fire in a typed
embedding: the argument is a string, and with 5 or 6 parts the
validator table has exactly one entry per part.) -/
def validateCronExpression (expression : String) : Option CronError :=
  if expression == "" then some .exprRequired
  else
    let cleanExpression := jsTrim expression
    if cleanExpression == "" then some .exprEmpty
    else
      let parts := jsSplitWhitespace cleanExpression
      if parts.length < 5 || parts.length > 6 then some .wrongPartCount
      else
        match (parts.zip (cronValidators parts.length)).findIdx?
            (fun pv => !(isValidCronPart pv.1 pv.2.1 pv.2.2)) with
        | some i => some (.invalidPart i)
        | none => none

/-! ## Route decorator and metadata store (`part_000`) -/

/-- `HTTP_METHODS` (lines 7-15), as the list of its values (the order is
the object property order, used by `Object.values`). -/
def HTTP_METHODS : List String :=
  ["GET", "POST", "PUT", "DELETE", "PATCH", "HEAD", "OPTIONS"]

/-- `isValidHttpMethod` (lines 30-32). -/
def isValidHttpMethod (method : String) : Bool :=
  HTTP_METHODS.contains method

/-- `RouteMetadata` (lines 19-24).  The `options` passed through to
fastify are never inspected by this module, so their type is a
parameter `ρ`. -/
structure RouteMetadata (ρ : Type) where
  method : String
  path : String
  handler : String
  options : Option ρ
deriving Repr, DecidableEq

/-- The distinct errors `@Route` can raise, one constructor per throw
site. -/
inductive RouteError where
  /-- line 51: the method is missing (falsy) or not a string -/
  | methodRequired
  /-- line 55: the uppercased method is not in `HTTP_METHODS` -/
  | methodUnsupported
  /-- line 63: the path does not start with a slash -/
  | pathMustStartWithSlash
  /-- line 67: the decorated member is not a function -/
  | notAMethod
  /-- line 84: a route with the same method and path already exists -/
  | duplicateRoute
deriving Repr, DecidableEq

/-- The `Reflect` metadata attached to one class under the
`routes` key: `none` when no metadata was ever defined. -/
abbrev RouteStore (ρ : Type) := Option (List (RouteMetadata ρ))

/-- `Route(method, path, options)` applied to member `propertyKey` of a
class whose current metadata is `stored` (lines 40-108).
`descriptorIsFunction` renders the `typeof descriptor.value ===
"function"` check.  The result pairs the class metadata after the call
with the raised error, if any: every throw happens before
`Reflect.defineMetadata`, so a raised error leaves the store unchanged.
(The `typeof path !== "string"` check of line 58 cannot fire in a typed
embedding; the `catch` of line 102 only rewraps the message of an error
already raised, so it does not change which error occurs.) -/
def Route (method path : String) (options : Option ρ) (propertyKey : String)
    (descriptorIsFunction : Bool) (stored : RouteStore ρ) :
    RouteStore ρ × Option RouteError :=
  if method == "" then (stored, some .methodRequired)
  else if !(isValidHttpMethod (jsToUpperCase method)) then
    (stored, some .methodUnsupported)
  else if !(jsStartsWithChar '/' path) then
    (stored, some .pathMustStartWithSlash)
  else if !descriptorIsFunction then (stored, some .notAMethod)
  else
    let existingRoutes := stored.getD []
    match existingRoutes.find?
        (fun r => r.method == jsToUpperCase method && r.path == path) with
    | some _ => (stored, some .duplicateRoute)
    | none =>
      (some (existingRoutes ++
        [{ method := jsToUpperCase method, path := path,
           handler := propertyKey, options := options }]), none)

/-- `getRoutes` (lines 218-224): the stored metadata, or `[]` when none
was ever defined (`metadata ?? []`). -/
def getRoutes (stored : RouteStore ρ) : List (RouteMetadata ρ) :=
  stored.getD []

/-! ## Cron job options, decorator and metadata store (`part_003`) -/

/-- `CronJobOptions` (lines 11-75).  Every field is optional in the
source; `none` renders an absent key.  The three callbacks are not data
the model can inspect, so each is rendered by whether it is present —
the executor only ever calls them. -/
structure CronJobOptions where
  timezone : Option String := none
  runOnInit : Option Bool := none
  description : Option String := none
  enabled : Option Bool := none
  maxConcurrency : Option Int := none
  timeout : Option Int := none
  onStart : Bool := false
  onComplete : Bool := false
  onError : Bool := false
  priority : Option Int := none
  retryAttempts : Option Int := none
  retryDelay : Option Int := none
deriving Repr, DecidableEq

/-- `CronJobMetadata` (lines 4-9). -/
structure CronJobMetadata where
  expression : String
  name : String
  handler : String
  options : Option CronJobOptions := none
deriving Repr, DecidableEq

/-- True when the option is present and its value satisfies `p`
(renders the `!== undefined` guard followed by the numeric test in
`validateCronJobOptions`). -/
def optViolates (x : Option Int) (p : Int → Bool) : Bool :=
  match x with
  | some v => p v
  | none => false

/-- `validateCronJobOptions` (lines 207-239).  `none` means the options
are accepted.  (The `typeof ... !== "number"` disjuncts cannot fire in
a typed embedding.) -/
def validateCronJobOptions (options : Option CronJobOptions) :
    Option CronError :=
  match options with
  | none => none
  | some o =>
    if optViolates o.maxConcurrency (fun v => decide (v < 1)) then
      some .badMaxConcurrency
    else if optViolates o.timeout (fun v => decide (v < 1)) then
      some .badTimeout
    else if optViolates o.priority (fun v => decide (v < 1 ∨ 10 < v)) then
      some .badPriority
    else if optViolates o.retryAttempts (fun v => decide (v < 0)) then
      some .badRetryAttempts
    else if optViolates o.retryDelay (fun v => decide (v < 0)) then
      some .badRetryDelay
    else none

/-- The object spread `{ enabled: true, maxConcurrency: 1, priority: 5,
retryAttempts: 0, retryDelay: 1000, runOnInit: false, ...options }`
(lines 300-308): a key present in `options` overrides the default,
an absent key keeps it; keys without a default are taken from
`options` alone.  Spreading `undefined` (`options` absent) adds no
keys. -/
def mergeOptions (options : Option CronJobOptions) : CronJobOptions :=
  let o := options.getD {}
  { timezone := o.timezone
    runOnInit := some (o.runOnInit.getD false)
    description := o.description
    enabled := some (o.enabled.getD true)
    maxConcurrency := some (o.maxConcurrency.getD 1)
    timeout := o.timeout
    onStart := o.onStart
    onComplete := o.onComplete
    onError := o.onError
    priority := some (o.priority.getD 5)
    retryAttempts := some (o.retryAttempts.getD 0)
    retryDelay := some (o.retryDelay.getD 1000) }

/-- The `Reflect` metadata attached to one class under the `cron-jobs`
key. -/
abbrev CronStore := Option (List CronJobMetadata)

/-- `CronJob(expression, options)` applied to member `propertyKey` of a
class whose current metadata is `stored` (lines 262-332).  As with
`Route`, every throw happens before `Reflect.defineMetadata`, so a
raised error leaves the store unchanged, and the `catch` of line 324
only rewraps the message. -/
def CronJob (expression : String) (options : Option CronJobOptions)
    (propertyKey : String) (descriptorIsFunction : Bool)
    (stored : CronStore) : CronStore × Option CronError :=
  match validateCronExpression expression with
  | some e => (stored, some e)
  | none =>
    match validateCronJobOptions options with
    | some e => (stored, some e)
    | none =>
      if !descriptorIsFunction then (stored, some .notAMethod)
      else
        let existingJobs := stored.getD []
        match existingJobs.find? (fun j => j.name == propertyKey) with
        | some _ => (stored, some .duplicateJob)
        | none =>
          (some (existingJobs ++
            [{ expression := expression, name := propertyKey,
               handler := propertyKey,
               options := some (mergeOptions options) }]), none)

/-- `getCronJobs` (lines 339-345): the stored metadata, or `[]`. -/
def getCronJobs (stored : CronStore) : List CronJobMetadata :=
  stored.getD []

/-- `getCronJob` (lines 353-356): first job with the given name. -/
def getCronJob (stored : CronStore) (jobName : String) :
    Option CronJobMetadata :=
  (getCronJobs stored).find? (fun j => j.name == jobName)

/-- `hasCronJobs` (lines 363-365). -/
def hasCronJobs (stored : CronStore) : Bool :=
  decide (0 < (getCronJobs stored).length)

/-- `getActiveCronJobs` (lines 372-374): jobs whose
`options?.enabled !== false`. -/
def getActiveCronJobs (stored : CronStore) : List CronJobMetadata :=
  (getCronJobs stored).filter
    (fun j => !((j.options.bind (fun o => o.enabled)) == some false))

/-! ## The retry/timeout executor (`part_003`, lines 376-442)

The executor is `async`: its only suspension points are awaiting the
handler (possibly raced against a timeout timer) and awaiting the retry
delay.  The model makes the event-loop time explicit as a virtual clock
in milliseconds.  One handler invocation is described by how the
promise it returns behaves: it settles after some duration with a value
or an error, or it never settles.  The handler may be stateful, so its
behaviour is a function of the attempt number. -/

/-- A JS `Error` value; only its `message` is ever consulted. -/
structure JsError where
  message : String
deriving Repr, DecidableEq

/-- Equality of settled promise outcomes is decidable (needed to
evaluate the executor on concrete runs). -/
instance exceptDecEq {ε α : Type} [DecidableEq ε] [DecidableEq α] :
    DecidableEq (Except ε α) := fun a b =>
  match a, b with
  | .ok x, .ok y =>
    if h : x = y then .isTrue (by rw [h]) else .isFalse (by simp [h])
  | .error x, .error y =>
    if h : x = y then .isTrue (by rw [h]) else .isFalse (by simp [h])
  | .ok _, .error _ => .isFalse (by simp)
  | .error _, .ok _ => .isFalse (by simp)

/-- The behaviour of the promise returned by one handler invocation. -/
inductive HandlerRun (α : Type) where
  /-- resolves with `value` after `duration` milliseconds -/
  | resolves (duration : Nat) (value : α)
  /-- rejects with `error` after `duration` milliseconds -/
  | rejects (duration : Nat) (error : JsError)
  /-- never settles -/
  | pending
deriving Repr, DecidableEq

/-- The settled outcome of one awaited attempt (`none` = the await
never settles) and the virtual milliseconds spent awaiting. -/
structure AwaitResult (α : Type) where
  outcome : Option (Except JsError α)
  elapsedMs : Nat
deriving Repr

/-- Awaiting the handler directly (line 412). -/
def awaitDirect (run : HandlerRun α) : AwaitResult α :=
  match run with
  | .resolves d v => ⟨some (.ok v), d⟩
  | .rejects d e => ⟨some (.error e), d⟩
  | .pending => ⟨none, 0⟩

/-- One awaited attempt (lines 404-413): when `options?.timeout` is
truthy the handler is raced against a rejection timer for the message
`"Timeout"`; otherwise the handler is awaited directly.  A timer with a
negative delay fires at 0 ms (`setTimeout` clamping); when handler and
timer would settle in the same millisecond the model lets the timer win
(no claim depends on that tie). -/
def awaitRace (timeout : Option Int) (run : HandlerRun α) : AwaitResult α :=
  match timeout with
  | some t =>
    if t ≠ 0 then
      let tFire := t.toNat
      match run with
      | .resolves d v =>
        if d < tFire then ⟨some (.ok v), d⟩
        else ⟨some (.error ⟨timeoutMessage⟩), tFire⟩
      | .rejects d e =>
        if d < tFire then ⟨some (.error e), d⟩
        else ⟨some (.error ⟨timeoutMessage⟩), tFire⟩
      | .pending => ⟨some (.error ⟨timeoutMessage⟩), tFire⟩
    else awaitDirect run
  | none => awaitDirect run

/-- `options?.timeout` (optional chaining). -/
def timeoutOf (options : Option CronJobOptions) : Option Int :=
  options.bind (fun o => o.timeout)

/-- `options?.retryAttempts ?? 0` (line 398). -/
def retryAttemptsOf (options : Option CronJobOptions) : Int :=
  (options.bind (fun o => o.retryAttempts)).getD 0

/-- The virtual milliseconds spent at line 429: when
`options?.retryDelay` is truthy the executor awaits a `setTimeout` of
that many milliseconds (clamped at 0), otherwise it does not wait.
A delay of `0` is falsy and skips the wait, which also takes 0 ms, so
the clamp covers both. -/
def retryDelayMs (options : Option CronJobOptions) : Nat :=
  ((options.bind (fun o => o.retryDelay)).getD 0).toNat

/-- Whether `options?.onStart?.(...)` actually calls a callback. -/
def onStartSet (options : Option CronJobOptions) : Bool :=
  (options.map (fun o => o.onStart)).getD false

/-- Whether `options?.onComplete?.(...)` actually calls a callback. -/
def onCompleteSet (options : Option CronJobOptions) : Bool :=
  (options.map (fun o => o.onComplete)).getD false

/-- Whether `options?.onError?.(...)` actually calls a callback. -/
def onErrorSet (options : Option CronJobOptions) : Bool :=
  (options.map (fun o => o.onError)).getD false

/-- `status` of `CronJobExecution` (line 84). -/
inductive CronStatus where
  | running
  | completed
  | failed
  | timeout
deriving Repr, DecidableEq

/-- `CronJobExecution` (lines 80-88), the mutable execution record the
caller hands to the executor.  Dates are virtual-clock instants. -/
structure CronJobExecution (α : Type) where
  jobName : String
  startTime : Nat
  endTime : Option Nat := none
  status : CronStatus
  error : Option JsError := none
  result : Option α := none
  attempt : Nat
deriving Repr, DecidableEq

/-- One observable callback invocation. -/
inductive CronEvent (α : Type) where
  /-- `onStart(jobName)` -/
  | started (jobName : String)
  /-- `onComplete(jobName, result)` -/
  | completed (jobName : String) (result : α)
  /-- `onError(jobName, error)` -/
  | errored (jobName : String) (error : JsError)
deriving Repr, DecidableEq

/-- Everything observable about one call of `executeCronJobSafely`:
the settled value of the returned promise (`none` = it never settles),
how many times the handler was invoked, the virtual clock when the
promise settled, the final state of the execution record, and the
callback invocations in order. -/
structure ExecOutcome (α : Type) where
  result : Option (Except JsError (Option α))
  invocations : Nat
  clock : Nat
  exec : CronJobExecution α
  events : List (CronEvent α)
deriving Repr

/-- The `for` loop of lines 398-441.  `attempt` is the loop variable;
`remaining` is the number of loop iterations still allowed by the
condition `attempt <= retryAttempts + 1`, the structural fuel of the
recursion; `clock` is the virtual time; `inv` counts handler
invocations so far.  When `remaining` is 0 the loop exits without
returning and the `async` function resolves with `undefined`
(`.ok none`). -/
def execLoop (meta : CronJobMetadata) (handler : Nat → HandlerRun α)
    (attempt remaining clock : Nat) (ex : CronJobExecution α)
    (events : List (CronEvent α)) (inv : Nat) : ExecOutcome α :=
  match remaining with
  | 0 => ⟨some (.ok none), inv, clock, ex, events⟩
  | r + 1 =>
    let opts := meta.options
    -- execution.attempt = attempt
    let ex := { ex with attempt := attempt }
    -- options?.onStart?.(jobMetadata.name)
    let events := events ++
      (if onStartSet opts then [CronEvent.started meta.name] else [])
    let res := awaitRace (timeoutOf opts) (handler attempt)
    match res.outcome with
    | none =>
      -- the awaited promise never settles: neither does the executor
      ⟨none, inv + 1, clock, ex, events⟩
    | some (.ok v) =>
      let ex := { ex with status := .completed, result := some v,
                          endTime := some (clock + res.elapsedMs) }
      let events := events ++
        (if onCompleteSet opts then [CronEvent.completed meta.name v]
         else [])
      ⟨some (.ok (some v)), inv + 1, clock + res.elapsedMs, ex, events⟩
    | some (.error e) =>
      let ex := { ex with error := some e }
      if (attempt : Int) ≤ retryAttemptsOf opts then
        execLoop meta handler (attempt + 1) r
          (clock + res.elapsedMs + retryDelayMs opts) ex events (inv + 1)
      else
        let ex := { ex with
          status := if e.message == timeoutMessage then CronStatus.timeout
                    else CronStatus.failed,
          endTime := some (clock + res.elapsedMs) }
        let events := events ++
          (if onErrorSet opts then [CronEvent.errored meta.name e] else [])
        ⟨some (.error e), inv + 1, clock + res.elapsedMs, ex, events⟩

/-- The message of the error raised at line 392 (the source
interpolates the handler name; the interpolation is dropped). -/
def handlerNotFunctionMessage : String := "Handler is not a function"

/-- `executeCronJobSafely` (lines 383-442).  `handlerLookup` is
`instance[jobMetadata.handler]` when it is a function, `none`
otherwise; `now` is the virtual clock at the call. -/
def executeCronJobSafely (meta : CronJobMetadata)
    (handlerLookup : Option (Nat → HandlerRun α)) (now : Nat)
    (ex : CronJobExecution α) : ExecOutcome α :=
  match handlerLookup with
  | none => ⟨some (.error ⟨handlerNotFunctionMessage⟩), 0, now, ex, []⟩
  | some handler =>
    execLoop meta handler 1 ((retryAttemptsOf meta.options + 1).toNat)
      now ex [] 0

/-- A fresh execution record, as the runtime reader would create it
just before calling the executor. -/
def sampleExecU : CronJobExecution Unit :=
  { jobName := "job", startTime := 0, status := .running, attempt := 0 }

/-! ## Helper lemmas -/

variable {α : Type} {ρ : Type}

/-- Awaiting a rejecting handler invocation always settles with an error
(the handler error when it beats the timer, the timeout sentinel
otherwise). -/
lemma awaitRace_rejects (t : Option Int) (dur : Nat) (e : JsError) :
    ∃ e2, (awaitRace t (HandlerRun.rejects dur e : HandlerRun α)).outcome
      = some (.error e2) := by
  rcases t with _ | t
  · exact ⟨e, rfl⟩
  · unfold awaitRace
    by_cases h : t ≠ 0
    · simp only [if_pos h]
      by_cases hd : dur < t.toNat
      · exact ⟨e, by simp [hd]⟩
      · exact ⟨⟨timeoutMessage⟩, by simp [hd]⟩
    · simp only [if_neg h]
      exact ⟨e, rfl⟩

/-- Behaviour of the retry loop against a handler that rejects on every
invocation: with `remaining = r + 1` iterations allowed and the loop
variable at `a` (linked by the loop invariant to `retryAttempts`),
every remaining attempt is used, the loop re-raises the error of the
final attempt `a + r`, records it in the execution record together with
the timeout-vs-failed status, and ends with the `onError` callback when
one is set. -/
lemma execLoop_rejects (meta : CronJobMetadata) (d : Nat → Nat)
    (errf : Nat → JsError) :
    ∀ (r : Nat) (a clock inv : Nat) (ex : CronJobExecution α)
      (events : List (CronEvent α)),
      (a : Int) + r = retryAttemptsOf meta.options + 1 →
      ∃ e,
        (awaitRace (timeoutOf meta.options)
          (HandlerRun.rejects (d (a + r)) (errf (a + r)) : HandlerRun α)).outcome
          = some (.error e) ∧
        (execLoop meta (fun i => .rejects (d i) (errf i)) a (r + 1) clock ex
            events inv).result = some (.error e) ∧
        (execLoop meta (fun i => .rejects (d i) (errf i)) a (r + 1) clock ex
            events inv).invocations = inv + (r + 1) ∧
        (execLoop meta (fun i => .rejects (d i) (errf i)) a (r + 1) clock ex
            events inv).exec.status
          = (if e.message == timeoutMessage then CronStatus.timeout
             else CronStatus.failed) ∧
        (execLoop meta (fun i => .rejects (d i) (errf i)) a (r + 1) clock ex
            events inv).exec.error = some e ∧
        (execLoop meta (fun i => .rejects (d i) (errf i)) a (r + 1) clock ex
            events inv).exec.attempt = a + r ∧
        (onErrorSet meta.options = true →
          (execLoop meta (fun i => .rejects (d i) (errf i)) a (r + 1) clock ex
            events inv).events.getLast? = some (.errored meta.name e)) := by
  intro r
  induction r with
  | zero =>
    intro a clock inv ex events hinv
    simp only [Nat.add_zero]
    obtain ⟨e2, he2⟩ :=
      awaitRace_rejects (α := α) (timeoutOf meta.options) (d a) (errf a)
    have hnotle : ¬ ((a : Int) ≤ retryAttemptsOf meta.options) := by omega
    refine ⟨e2, he2, ?_, ?_, ?_, ?_, ?_, ?_⟩ <;>
      simp only [execLoop, he2, if_neg hnotle]
    intro hon
    simp [hon, List.getLast?_concat]
  | succ n ih =>
    intro a clock inv ex events hinv
    have hidx : a + (n + 1) = a + 1 + n := by omega
    rw [hidx]
    have hle : (a : Int) ≤ retryAttemptsOf meta.options := by omega
    have hinv2 : ((a + 1 : Nat) : Int) + n
        = retryAttemptsOf meta.options + 1 := by
      push_cast
      push_cast at hinv
      omega
    obtain ⟨e2, he2⟩ :=
      awaitRace_rejects (α := α) (timeoutOf meta.options) (d a) (errf a)
    have hstep :
        execLoop meta (fun i => .rejects (d i) (errf i)) a (n + 1 + 1) clock
            ex events inv
          = execLoop meta (fun i => .rejects (d i) (errf i)) (a + 1) (n + 1)
              (clock + (awaitRace (timeoutOf meta.options)
                (HandlerRun.rejects (d a) (errf a) : HandlerRun α)).elapsedMs +
                retryDelayMs meta.options)
              { jobName := ex.jobName, startTime := ex.startTime,
                endTime := ex.endTime, status := ex.status, error := some e2,
                result := ex.result, attempt := a }
              (events ++ (if onStartSet meta.options then
                [CronEvent.started meta.name] else []))
              (inv + 1) := by
      conv_lhs => rw [execLoop]
      simp only [he2]
      rw [if_pos hle]
    rw [hstep]
    obtain ⟨e, h1, h2, h3, h4, h5, h6, h7⟩ :=
      ih (a + 1)
        (clock + (awaitRace (timeoutOf meta.options)
          (HandlerRun.rejects (d a) (errf a) : HandlerRun α)).elapsedMs +
          retryDelayMs meta.options)
        (inv + 1)
        { jobName := ex.jobName, startTime := ex.startTime,
          endTime := ex.endTime, status := ex.status, error := some e2,
          result := ex.result, attempt := a }
        (events ++ (if onStartSet meta.options then
          [CronEvent.started meta.name] else []))
        hinv2
    refine ⟨e, h1, h2, ?_, h4, h5, h6, h7⟩
    rw [h3]
    omega

/-- The retry loop reads the metadata only through the job name and the
option projections it actually consults; two metadata values agreeing
on those produce identical loop behaviour. -/
lemma execLoop_options_congr (m1 m2 : CronJobMetadata)
    (handler : Nat → HandlerRun α)
    (hname : m1.name = m2.name)
    (ht : timeoutOf m1.options = timeoutOf m2.options)
    (hra : retryAttemptsOf m1.options = retryAttemptsOf m2.options)
    (hrd : retryDelayMs m1.options = retryDelayMs m2.options)
    (hs : onStartSet m1.options = onStartSet m2.options)
    (hc : onCompleteSet m1.options = onCompleteSet m2.options)
    (he : onErrorSet m1.options = onErrorSet m2.options) :
    ∀ (r : Nat) (a clock inv : Nat) (ex : CronJobExecution α)
      (events : List (CronEvent α)),
      execLoop m1 handler a r clock ex events inv
        = execLoop m2 handler a r clock ex events inv := by
  intro r
  induction r with
  | zero => intro a clock inv ex events; rfl
  | succ n ih =>
    intro a clock inv ex events
    rw [execLoop, execLoop, hname, ht, hra, hrd, hs, hc, he]
    cases houtcome :
        (awaitRace (timeoutOf m2.options) (handler a)).outcome with
    | none => rfl
    | some res =>
      cases res with
      | ok v => rfl
      | error e =>
        simp only []
        by_cases hif : ((a : Nat) : Int) ≤ retryAttemptsOf m2.options
        · rw [if_pos hif, if_pos hif, ih]
        · rw [if_neg hif, if_neg hif]

/-- The seven supported method names are their own uppercase forms. -/
lemma toUpper_of_mem_HTTP_METHODS (method : String)
    (hm : method ∈ HTTP_METHODS) : jsToUpperCase method = method := by
  simp only [HTTP_METHODS, List.mem_cons, List.not_mem_nil, or_false] at hm
  rcases hm with rfl | rfl | rfl | rfl | rfl | rfl | rfl <;> rfl

/-- A method whose uppercase form is a supported method is non-empty. -/
lemma ne_empty_of_toUpper_mem (method : String)
    (hm : jsToUpperCase method ∈ HTTP_METHODS) : method ≠ "" := by
  intro h
  subst h
  revert hm
  decide

/-- A `@Route` application whose method uppercases to a supported
method, whose path starts with a slash and whose (uppercased method,
path) pair is not yet registered appends the new record and raises
nothing. -/
lemma Route_success (method path propertyKey : String) (options : Option ρ)
    (stored : RouteStore ρ)
    (hm : jsToUpperCase method ∈ HTTP_METHODS)
    (hp : jsStartsWithChar '/' path = true)
    (hfresh : ∀ r ∈ getRoutes stored,
      ¬(r.method = jsToUpperCase method ∧ r.path = path)) :
    Route method path options propertyKey true stored
      = (some (getRoutes stored ++
          [{ method := jsToUpperCase method, path := path,
             handler := propertyKey, options := options }]), none) := by
  have hne := ne_empty_of_toUpper_mem method hm
  have hme : (method == "") = false := by simpa using hne
  have hvalid : isValidHttpMethod (jsToUpperCase method) = true := by
    simpa [isValidHttpMethod] using hm
  have hfind : List.find?
      (fun r => r.method == jsToUpperCase method && r.path == path)
      (stored.getD []) = none := by
    rw [List.find?_eq_none]
    intro r hr
    have := hfresh r hr
    simp only [Bool.and_eq_true, beq_iff_eq]
    tauto
  simp only [Route, hme, hvalid, hp, Bool.not_true, Bool.not_false,
    if_false, if_true, Bool.false_eq_true, hfind, getRoutes]

/-- A `@Route` application whose (uppercased method, path) pair is
already registered raises the duplicate error and leaves the store
unchanged. -/
lemma Route_duplicate (method path propertyKey : String) (options : Option ρ)
    (stored : RouteStore ρ)
    (hm : jsToUpperCase method ∈ HTTP_METHODS)
    (hp : jsStartsWithChar '/' path = true)
    (hdup : ∃ r ∈ getRoutes stored,
      r.method = jsToUpperCase method ∧ r.path = path) :
    Route method path options propertyKey true stored
      = (stored, some RouteError.duplicateRoute) := by
  have hne := ne_empty_of_toUpper_mem method hm
  have hme : (method == "") = false := by simpa using hne
  have hvalid : isValidHttpMethod (jsToUpperCase method) = true := by
    simpa [isValidHttpMethod] using hm
  have hsome : (List.find?
      (fun r => r.method == jsToUpperCase method && r.path == path)
      (stored.getD [])).isSome = true := by
    rw [List.find?_isSome]
    obtain ⟨r, hr, h1, h2⟩ := hdup
    exact ⟨r, hr, by simp [h1, h2]⟩
  obtain ⟨r0, hr0⟩ := Option.isSome_iff_exists.mp hsome
  simp only [Route, hme, hvalid, hp, Bool.not_true, Bool.not_false,
    if_false, if_true, Bool.false_eq_true, hr0]

/-- `find?` skips a prefix in which nothing matches. -/
lemma find?_append_of_none {β : Type} (p : β → Bool) (l1 l2 : List β)
    (h : l1.find? p = none) : (l1 ++ l2).find? p = l2.find? p := by
  rw [List.find?_append, h, Option.none_or]

/-! ## The claims -/

/-- Claim C1 (code bug): the claim says every 5-or-6-field expression
whose fields are in-range values, wildcards, ranges, steps or comma
lists is accepted, and every out-of-range or malformed field raises.
The code disagrees in both directions.  The range `0-5` is in range for
the minute field (`0 ≤ 0`, `5 ≤ 59`), yet `validateCronExpression`
raises on `"0-5 * * * *"`, because the guard `!start` in
`isValidCronPart` treats the numeric value `0` as missing; and the
malformed field `","` is accepted in `", * * * *"`, because splitting
it on commas yields two empty strings that `Number` coerces to `0`. -/
theorem cron_validation_divergences :
    validateCronExpression "0-5 * * * *" = some (CronError.invalidPart 0) ∧
    isValidCronPart "0-5" 0 59 = false ∧
    ((0 : Int) ≤ 0 ∧ (0 : Int) ≤ 5 ∧ (5 : Int) ≤ 59) ∧
    validateCronExpression ", * * * *" = none ∧
    isValidCronPart "," 0 59 = true := by
  decide

/-- Claim C2: a job whose options carry `retryAttempts = n` and whose
handler rejects on every invocation is invoked exactly `n + 1` times,
and the error the final attempt settles with is re-raised to the
caller. -/
theorem executor_retry_invocation_count (n : Nat)
    (expr jobName handlerName : String) (o : CronJobOptions)
    (d : Nat → Nat) (errf : Nat → JsError) (now : Nat)
    (ex : CronJobExecution α) :
    (executeCronJobSafely
        { expression := expr, name := jobName, handler := handlerName,
          options := some { o with retryAttempts := some (n : Int) } }
        (some (fun i => .rejects (d i) (errf i))) now ex).invocations
      = n + 1 ∧
    ∃ e,
      (awaitRace o.timeout
        (HandlerRun.rejects (d (n + 1)) (errf (n + 1)) : HandlerRun α)).outcome
        = some (.error e) ∧
      (executeCronJobSafely
        { expression := expr, name := jobName, handler := handlerName,
          options := some { o with retryAttempts := some (n : Int) } }
        (some (fun i => .rejects (d i) (errf i))) now ex).result
        = some (.error e) := by
  have hra : retryAttemptsOf
      (some { o with retryAttempts := some ((n : Nat) : Int) })
      = (n : Int) := rfl
  have hfuel : (retryAttemptsOf
      (some { o with retryAttempts := some ((n : Nat) : Int) }) + 1).toNat
      = n + 1 := by rw [hra]; omega
  obtain ⟨e, h1, h2, h3, h4, h5, h6, h7⟩ :=
    execLoop_rejects (α := α)
      { expression := expr, name := jobName, handler := handlerName,
        options := some { o with retryAttempts := some (n : Int) } }
      d errf n 1 now 0 ex [] (by rw [hra]; push_cast; omega)
  have hidx : 1 + n = n + 1 := by omega
  rw [hidx] at h1
  simp only [executeCronJobSafely, hfuel]
  exact ⟨by rw [h3]; omega, ⟨e, h1, h2⟩⟩

/-- Claim C3, amended: when all attempts fail, the error the final
attempt settles with is re-raised, the execution record stores it, the
status becomes `timeout` exactly when that error's message is the
string `"Timeout"` (which the race sentinel always carries, but which a
handler error may also carry without any race), and a set `onError`
callback fires last with the job name and the error. -/
theorem executor_final_failure_record (n : Nat)
    (expr jobName handlerName : String) (o : CronJobOptions)
    (d : Nat → Nat) (errf : Nat → JsError) (now : Nat)
    (ex : CronJobExecution α) :
    ∃ e,
      (awaitRace o.timeout
        (HandlerRun.rejects (d (n + 1)) (errf (n + 1)) : HandlerRun α)).outcome
        = some (.error e) ∧
      (executeCronJobSafely
        { expression := expr, name := jobName, handler := handlerName,
          options := some { o with retryAttempts := some (n : Int), onError := true } }
        (some (fun i => .rejects (d i) (errf i))) now ex).result
        = some (.error e) ∧
      (executeCronJobSafely
        { expression := expr, name := jobName, handler := handlerName,
          options := some { o with retryAttempts := some (n : Int), onError := true } }
        (some (fun i => .rejects (d i) (errf i))) now ex).exec.status
        = (if e.message == timeoutMessage then CronStatus.timeout
           else CronStatus.failed) ∧
      (executeCronJobSafely
        { expression := expr, name := jobName, handler := handlerName,
          options := some { o with retryAttempts := some (n : Int), onError := true } }
        (some (fun i => .rejects (d i) (errf i))) now ex).exec.error
        = some e ∧
      (executeCronJobSafely
        { expression := expr, name := jobName, handler := handlerName,
          options := some { o with retryAttempts := some (n : Int), onError := true } }
        (some (fun i => .rejects (d i) (errf i))) now ex).events.getLast?
        = some (.errored jobName e) := by
  have hra : retryAttemptsOf
      (some { o with retryAttempts := some ((n : Nat) : Int), onError := true })
      = (n : Int) := rfl
  have hfuel : (retryAttemptsOf
      (some { o with retryAttempts := some ((n : Nat) : Int), onError := true })
      + 1).toNat = n + 1 := by rw [hra]; omega
  obtain ⟨e, h1, h2, h3, h4, h5, h6, h7⟩ :=
    execLoop_rejects (α := α)
      { expression := expr, name := jobName, handler := handlerName,
        options := some { o with retryAttempts := some (n : Int), onError := true } }
      d errf n 1 now 0 ex [] (by rw [hra]; push_cast; omega)
  have hidx : 1 + n = n + 1 := by omega
  rw [hidx] at h1
  simp only [executeCronJobSafely, hfuel]
  exact ⟨e, h1, h2, h4, h5, h7 rfl⟩

/-- Claim C3, counterexample to the claim as stated: with no `timeout`
configured at all (so no race can have expired), a handler that rejects
with an error whose message happens to be `"Timeout"` still drives the
final status to `timeout`; the claimed "status is timeout if and only
if the failure was a timeout of the race" is false. -/
theorem executor_status_timeout_without_race :
    (timeoutOf (some ({ onError := true } : CronJobOptions)) = none) ∧
    (executeCronJobSafely
      { expression := "* * * * *", name := "job", handler := "job",
        options := some { onError := true } }
      (some (fun _ => HandlerRun.rejects 0 ⟨"Timeout"⟩)) 0
      sampleExecU).exec.status = CronStatus.timeout := by
  exact ⟨rfl, by decide⟩

/-- Claim C4: with `timeout = t > 0`, `retryAttempts = 0` and a handler
whose promise never settles, the executor rejects with the timeout
sentinel after exactly `t` virtual milliseconds, with the execution
record marked `timeout`, after a single handler invocation (the pending
invocation is merely ignored: it is an input left untouched). -/
theorem executor_timeout_pending (t : Nat) (ht : 0 < t)
    (expr jobName handlerName : String) (o : CronJobOptions)
    (now : Nat) (ex : CronJobExecution α) :
    (executeCronJobSafely
        { expression := expr, name := jobName, handler := handlerName,
          options := some { o with timeout := some (t : Int), retryAttempts := some 0 } }
        (some (fun _ => (HandlerRun.pending : HandlerRun α))) now ex).result
      = some (.error ⟨timeoutMessage⟩) ∧
    (executeCronJobSafely
        { expression := expr, name := jobName, handler := handlerName,
          options := some { o with timeout := some (t : Int), retryAttempts := some 0 } }
        (some (fun _ => (HandlerRun.pending : HandlerRun α))) now ex).exec.status
      = CronStatus.timeout ∧
    (executeCronJobSafely
        { expression := expr, name := jobName, handler := handlerName,
          options := some { o with timeout := some (t : Int), retryAttempts := some 0 } }
        (some (fun _ => (HandlerRun.pending : HandlerRun α))) now ex).invocations
      = 1 ∧
    (executeCronJobSafely
        { expression := expr, name := jobName, handler := handlerName,
          options := some { o with timeout := some (t : Int), retryAttempts := some 0 } }
        (some (fun _ => (HandlerRun.pending : HandlerRun α))) now ex).clock
      = now + t ∧
    (executeCronJobSafely
        { expression := expr, name := jobName, handler := handlerName,
          options := some { o with timeout := some (t : Int), retryAttempts := some 0 } }
        (some (fun _ => (HandlerRun.pending : HandlerRun α))) now ex).exec.endTime
      = some (now + t) := by
  have hto : awaitRace (some ((t : Nat) : Int))
      (HandlerRun.pending : HandlerRun α)
      = ⟨some (.error ⟨timeoutMessage⟩), t⟩ := by
    rw [awaitRace, if_pos (show ((t : Nat) : Int) ≠ 0 by omega)]
    simp
  have hfuel : (retryAttemptsOf
      (some { o with timeout := some ((t : Nat) : Int), retryAttempts := some 0 })
      + 1).toNat = 1 := rfl
  have hra : retryAttemptsOf
      (some { o with timeout := some ((t : Nat) : Int), retryAttempts := some 0 })
      = 0 := rfl
  simp only [executeCronJobSafely, hfuel, execLoop, timeoutOf, Option.bind,
    hto, hra]
  norm_num

/-- Claim C4, witness at `t = 5`. -/
theorem executor_timeout_pending_witness :
    0 < 5 ∧
    ((executeCronJobSafely
        { expression := "* * * * *", name := "job", handler := "job",
          options := some { ({} : CronJobOptions) with timeout := some ((5 : Nat) : Int), retryAttempts := some 0 } }
        (some (fun _ => (HandlerRun.pending : HandlerRun Unit))) 0
        sampleExecU).result
      = some (.error ⟨timeoutMessage⟩) ∧
    (executeCronJobSafely
        { expression := "* * * * *", name := "job", handler := "job",
          options := some { ({} : CronJobOptions) with timeout := some ((5 : Nat) : Int), retryAttempts := some 0 } }
        (some (fun _ => (HandlerRun.pending : HandlerRun Unit))) 0
        sampleExecU).exec.status = CronStatus.timeout ∧
    (executeCronJobSafely
        { expression := "* * * * *", name := "job", handler := "job",
          options := some { ({} : CronJobOptions) with timeout := some ((5 : Nat) : Int), retryAttempts := some 0 } }
        (some (fun _ => (HandlerRun.pending : HandlerRun Unit))) 0
        sampleExecU).invocations = 1 ∧
    (executeCronJobSafely
        { expression := "* * * * *", name := "job", handler := "job",
          options := some { ({} : CronJobOptions) with timeout := some ((5 : Nat) : Int), retryAttempts := some 0 } }
        (some (fun _ => (HandlerRun.pending : HandlerRun Unit))) 0
        sampleExecU).clock = 0 + 5 ∧
    (executeCronJobSafely
        { expression := "* * * * *", name := "job", handler := "job",
          options := some { ({} : CronJobOptions) with timeout := some ((5 : Nat) : Int), retryAttempts := some 0 } }
        (some (fun _ => (HandlerRun.pending : HandlerRun Unit))) 0
        sampleExecU).exec.endTime = some (0 + 5)) :=
  ⟨by decide,
    executor_timeout_pending 5 (by decide) "* * * * *" "job" "job" {} 0
      sampleExecU⟩

/-- Claim C7: the executor never consults `maxConcurrency`; two job
descriptors identical except for that option produce identical
observable outcomes (result, invocation count, timing, execution
record, callback events) for any handler lookup, clock and execution
record. -/
theorem executor_ignores_maxConcurrency (expr jobName handlerName : String)
    (o : CronJobOptions) (m1 m2 : Option Int)
    (handlerLookup : Option (Nat → HandlerRun α)) (now : Nat)
    (ex : CronJobExecution α) :
    executeCronJobSafely
      { expression := expr, name := jobName, handler := handlerName,
        options := some { o with maxConcurrency := m1 } }
      handlerLookup now ex
    = executeCronJobSafely
      { expression := expr, name := jobName, handler := handlerName,
        options := some { o with maxConcurrency := m2 } }
      handlerLookup now ex := by
  cases handlerLookup with
  | none => rfl
  | some h =>
    simp only [executeCronJobSafely]
    exact execLoop_options_congr
      { expression := expr, name := jobName, handler := handlerName,
        options := some { o with maxConcurrency := m1 } }
      { expression := expr, name := jobName, handler := handlerName,
        options := some { o with maxConcurrency := m2 } }
      h rfl rfl rfl rfl rfl rfl rfl _ _ _ _ _ _

/-- Claim C5: for each of the seven supported HTTP methods and every
path starting with a slash, decorating a method of a class (with no
route yet registered for that method/path pair) raises nothing, and
the record with that method, path, handler name and options is stored
and returned by `getRoutes`. -/
theorem route_registration_succeeds (method path propertyKey : String)
    (options : Option ρ) (stored : RouteStore ρ)
    (hm : method ∈ HTTP_METHODS)
    (hp : jsStartsWithChar '/' path = true)
    (hfresh : ∀ r ∈ getRoutes stored,
      ¬(r.method = method ∧ r.path = path)) :
    (Route method path options propertyKey true stored).2 = none ∧
    (Route method path options propertyKey true stored).1
      = some (getRoutes stored ++
          [{ method := method, path := path, handler := propertyKey,
             options := options }]) ∧
    ({ method := method, path := path, handler := propertyKey,
       options := options } : RouteMetadata ρ)
      ∈ getRoutes (Route method path options propertyKey true stored).1 := by
  have hup := toUpper_of_mem_HTTP_METHODS method hm
  have hm2 : jsToUpperCase method ∈ HTTP_METHODS := by rw [hup]; exact hm
  have hfresh2 : ∀ r ∈ getRoutes stored,
      ¬(r.method = jsToUpperCase method ∧ r.path = path) := by
    rw [hup]; exact hfresh
  have hstep := Route_success method path propertyKey options stored hm2 hp
    hfresh2
  rw [hup] at hstep
  rw [hstep]
  exact ⟨rfl, rfl, by simp [getRoutes]⟩

/-- Claim C5, witness: registering `GET /users` on a class with no
metadata. -/
theorem route_registration_succeeds_witness :
    ("GET" ∈ HTTP_METHODS ∧ jsStartsWithChar '/' "/users" = true ∧
      (∀ r ∈ getRoutes (none : RouteStore Unit),
        ¬(r.method = "GET" ∧ r.path = "/users"))) ∧
    ((Route "GET" "/users" (none : Option Unit) "list" true none).2 = none ∧
    (Route "GET" "/users" (none : Option Unit) "list" true none).1
      = some (getRoutes (none : RouteStore Unit) ++
          [{ method := "GET", path := "/users", handler := "list",
             options := none }]) ∧
    ({ method := "GET", path := "/users", handler := "list",
       options := none } : RouteMetadata Unit)
      ∈ getRoutes (Route "GET" "/users" (none : Option Unit) "list" true
          none).1) :=
  ⟨⟨by decide, by decide, by decide⟩,
    route_registration_succeeds "GET" "/users" "list" none none (by decide)
      (by decide) (by decide)⟩

/-- Claim C6: registering a route whose uppercased method and path
coincide with an already registered route of the same class raises the
duplicate error, and the pair returned carries the stored list
unchanged (the throw happens before `Reflect.defineMetadata`). -/
theorem route_duplicate_rejected (method path propertyKey : String)
    (options : Option ρ) (stored : RouteStore ρ)
    (hm : jsToUpperCase method ∈ HTTP_METHODS)
    (hp : jsStartsWithChar '/' path = true)
    (hdup : ∃ r ∈ getRoutes stored,
      r.method = jsToUpperCase method ∧ r.path = path) :
    Route method path options propertyKey true stored
      = (stored, some RouteError.duplicateRoute) :=
  Route_duplicate method path propertyKey options stored hm hp hdup

/-- Claim C6, witness: re-registering `GET /users`. -/
theorem route_duplicate_rejected_witness :
    (jsToUpperCase "GET" ∈ HTTP_METHODS ∧
      jsStartsWithChar '/' "/users" = true ∧
      (∃ r ∈ getRoutes (some [(⟨"GET", "/users", "list", none⟩ :
          RouteMetadata Unit)]),
        r.method = jsToUpperCase "GET" ∧ r.path = "/users")) ∧
    Route "GET" "/users" (none : Option Unit) "list2" true
        (some [⟨"GET", "/users", "list", none⟩])
      = (some [(⟨"GET", "/users", "list", none⟩ : RouteMetadata Unit)],
         some RouteError.duplicateRoute) :=
  ⟨⟨by decide, by decide, by decide⟩,
    route_duplicate_rejected "GET" "/users" "list2" none
      (some [⟨"GET", "/users", "list", none⟩])
      (by decide) (by decide) (by decide)⟩

/-- Claim C9: the method argument is uppercased before validation,
storage and duplicate checking: any method whose uppercase form is
supported registers successfully with the uppercase form stored, and a
second registration whose method uppercases to the same form on the
same path is rejected as a duplicate with the store unchanged. -/
theorem route_method_case_insensitive
    (method method2 path propertyKey propertyKey2 : String)
    (options options2 : Option ρ) (stored : RouteStore ρ)
    (hm : jsToUpperCase method ∈ HTTP_METHODS)
    (hm2 : jsToUpperCase method2 = jsToUpperCase method)
    (hp : jsStartsWithChar '/' path = true)
    (hfresh : ∀ r ∈ getRoutes stored,
      ¬(r.method = jsToUpperCase method ∧ r.path = path)) :
    (Route method path options propertyKey true stored).2 = none ∧
    ({ method := jsToUpperCase method, path := path, handler := propertyKey,
       options := options } : RouteMetadata ρ)
      ∈ getRoutes (Route method path options propertyKey true stored).1 ∧
    Route method2 path options2 propertyKey2 true
        (Route method path options propertyKey true stored).1
      = ((Route method path options propertyKey true stored).1,
         some RouteError.duplicateRoute) := by
  have hstep := Route_success method path propertyKey options stored hm hp
    hfresh
  rw [hstep]
  refine ⟨rfl, by simp [getRoutes], ?_⟩
  apply Route_duplicate
  · rw [hm2]; exact hm
  · exact hp
  · refine ⟨⟨jsToUpperCase method, path, propertyKey, options⟩, ?_,
      by rw [hm2], rfl⟩
    simp [getRoutes]

/-- Claim C9, witness: `get` registers as `GET /users`, and `GET` on
the same path is then rejected as a duplicate. -/
theorem route_method_case_insensitive_witness :
    (jsToUpperCase "get" ∈ HTTP_METHODS ∧
      jsToUpperCase "GET" = jsToUpperCase "get" ∧
      jsStartsWithChar '/' "/users" = true ∧
      (∀ r ∈ getRoutes (none : RouteStore Unit),
        ¬(r.method = jsToUpperCase "get" ∧ r.path = "/users"))) ∧
    ((Route "get" "/users" (none : Option Unit) "list" true none).2
      = none ∧
    ({ method := jsToUpperCase "get", path := "/users", handler := "list",
       options := none } : RouteMetadata Unit)
      ∈ getRoutes (Route "get" "/users" (none : Option Unit) "list" true
          none).1 ∧
    Route "GET" "/users" (none : Option Unit) "list2" true
        (Route "get" "/users" (none : Option Unit) "list" true none).1
      = ((Route "get" "/users" (none : Option Unit) "list" true none).1,
         some RouteError.duplicateRoute)) :=
  ⟨⟨by decide, by decide, by decide, by decide⟩,
    route_method_case_insensitive "get" "GET" "/users" "list" "list2"
      none none none (by decide) (by decide) (by decide) (by decide)⟩

/-- Claim C8: a `@CronJob` registration with a valid expression and
valid (possibly absent) options stores a descriptor whose options carry
`enabled = true`, `maxConcurrency = 1`, `priority = 5`,
`retryAttempts = 0`, `retryDelay = 1000` and `runOnInit = false` for
every omitted key, the supplied value for every present key, and the
supplied (or absent) values of the keys without defaults. -/
theorem cronJob_option_defaults (expr propertyKey : String)
    (options : Option CronJobOptions) (stored : CronStore)
    (hexpr : validateCronExpression expr = none)
    (hopts : validateCronJobOptions options = none)
    (hfresh : ∀ j ∈ getCronJobs stored, j.name ≠ propertyKey) :
    (CronJob expr options propertyKey true stored).2 = none ∧
    ∃ fo, getCronJob (CronJob expr options propertyKey true stored).1
        propertyKey
      = some { expression := expr, name := propertyKey,
               handler := propertyKey, options := some fo } ∧
      fo.enabled = some ((options.getD {}).enabled.getD true) ∧
      fo.maxConcurrency = some ((options.getD {}).maxConcurrency.getD 1) ∧
      fo.priority = some ((options.getD {}).priority.getD 5) ∧
      fo.retryAttempts = some ((options.getD {}).retryAttempts.getD 0) ∧
      fo.retryDelay = some ((options.getD {}).retryDelay.getD 1000) ∧
      fo.runOnInit = some ((options.getD {}).runOnInit.getD false) ∧
      fo.timezone = (options.getD {}).timezone ∧
      fo.description = (options.getD {}).description ∧
      fo.timeout = (options.getD {}).timeout := by
  have hfind : List.find? (fun j => j.name == propertyKey)
      (stored.getD []) = none := by
    rw [List.find?_eq_none]
    intro j hj
    have := hfresh j hj
    simpa using this
  have hout : CronJob expr options propertyKey true stored
      = (some (stored.getD [] ++
          [{ expression := expr, name := propertyKey,
             handler := propertyKey,
             options := some (mergeOptions options) }]), none) := by
    simp only [CronJob, hexpr, hopts, Bool.not_true, Bool.false_eq_true,
      if_false, if_true, hfind]
  rw [hout]
  refine ⟨rfl, mergeOptions options, ?_, rfl, rfl, rfl, rfl, rfl, rfl,
    rfl, rfl, rfl⟩
  simp only [getCronJob, getCronJobs, Option.getD_some]
  rw [find?_append_of_none _ _ _ hfind]
  simp

/-- Claim C8, witness: registering with only `priority` supplied keeps
the five other defaults and overrides `priority`. -/
theorem cronJob_option_defaults_witness :
    (validateCronExpression "* * * * *" = none ∧
      validateCronJobOptions (some { priority := some 2 }) = none ∧
      (∀ j ∈ getCronJobs (none : CronStore), j.name ≠ "job")) ∧
    ((CronJob "* * * * *" (some { priority := some 2 }) "job" true
        (none : CronStore)).2 = none ∧
    ∃ fo, getCronJob (CronJob "* * * * *" (some { priority := some 2 })
          "job" true (none : CronStore)).1 "job"
      = some { expression := "* * * * *", name := "job", handler := "job",
               options := some fo } ∧
      fo.enabled = some true ∧
      fo.maxConcurrency = some 1 ∧
      fo.priority = some 2 ∧
      fo.retryAttempts = some 0 ∧
      fo.retryDelay = some 1000 ∧
      fo.runOnInit = some false ∧
      fo.timezone = none ∧
      fo.description = none ∧
      fo.timeout = none) :=
  ⟨⟨by decide, by decide, by decide⟩,
    cronJob_option_defaults "* * * * *" "job" (some { priority := some 2 })
      none (by decide) (by decide) (by decide)⟩

/-- Claim C10: the metadata readers are total: on a class with no
stored metadata `getRoutes`, `getCronJobs` and `getActiveCronJobs`
return the empty list, and `getCronJob` returns `none` for a name no
stored job carries. -/
theorem metadata_lookups_total (stored : CronStore) (jobName : String)
    (hfresh : ∀ j ∈ getCronJobs stored, j.name ≠ jobName) :
    getRoutes (none : RouteStore Unit) = [] ∧
    getCronJobs (none : CronStore) = [] ∧
    getActiveCronJobs (none : CronStore) = [] ∧
    getCronJob stored jobName = none := by
  refine ⟨rfl, rfl, rfl, ?_⟩
  simp only [getCronJob, getCronJobs]
  rw [List.find?_eq_none]
  intro j hj
  have := hfresh j hj
  simpa using this

/-- Claim C10, witness: a class with one job named `job` has no job
named `other`. -/
theorem metadata_lookups_total_witness :
    (∀ j ∈ getCronJobs (some [⟨"* * * * *", "job", "job", none⟩]),
      j.name ≠ "other") ∧
    (getRoutes (none : RouteStore Unit) = [] ∧
    getCronJobs (none : CronStore) = [] ∧
    getActiveCronJobs (none : CronStore) = [] ∧
    getCronJob (some [⟨"* * * * *", "job", "job", none⟩]) "other"
      = none) :=
  ⟨by decide,
    metadata_lookups_total
      (some [⟨"* * * * *", "job", "job", none⟩]) "other" (by decide)⟩

end GtfReflectedRouter
